import Mathlib

/-!
Verification of the RTMP push protocol engine specified for
`esp_media_protocols` (public interface: `include/esp_rtmp_push.h`).

Only the public C header is present in the repository sources; the engine
behind it (chunk multiplexer, command encoder, media packetizer, session
state machine) is specified in the natural-language design document, so the
behavioural definitions below are modelled from that specification, while
the data-model types follow the header declarations.
-/

namespace RtmpPush

/-! ## Data model, from `esp_rtmp_push.h` -/

/-- RTMP video codec type (`esp_rtmp_video_codec_t`). -/
inductive esp_rtmp_video_codec_t where
  | RTMP_VIDEO_CODEC_NONE
  | RTMP_VIDEO_CODEC_H264
  | RTMP_VIDEO_CODEC_MJPEG
deriving DecidableEq, Repr

/-- RTMP audio codec type (`esp_rtmp_audio_codec_t`). -/
inductive esp_rtmp_audio_codec_t where
  | RTMP_AUDIO_CODEC_NONE
  | RTMP_AUDIO_CODEC_AAC
  | RTMP_AUDIO_CODEC_MP3
  | RTMP_AUDIO_CODEC_PCM
deriving DecidableEq, Repr

/-- Audio information (`esp_rtmp_audio_info_t`): codec parameters plus the
opaque codec specific configuration blob, modelled as its byte list. -/
structure esp_rtmp_audio_info_t where
  codec : esp_rtmp_audio_codec_t
  channel : Nat
  bits_per_sample : Nat
  sample_rate : Nat
  codec_spec_info : List Nat
deriving DecidableEq, Repr

/-- Video information (`esp_rtmp_video_info_t`): codec specific info blob
(for H264, SPS and PPS), codec type and geometry. -/
structure esp_rtmp_video_info_t where
  codec_spec_info : List Nat
  codec : esp_rtmp_video_codec_t
  width : Nat
  height : Nat
  fps : Nat
deriving DecidableEq, Repr

/-- Video data (`esp_rtmp_video_data_t`): `pts` is declared `uint32_t` in the
header, so the stored value is always reduced modulo `2^32`. -/
structure esp_rtmp_video_data_t where
  pts : Nat
  key_frame : Bool
  data : List Nat
deriving DecidableEq, Repr

/-- Audio data (`esp_rtmp_audio_data_t`): `pts` is declared `uint32_t`. -/
structure esp_rtmp_audio_data_t where
  pts : Nat
  data : List Nat
deriving DecidableEq, Repr

/-- Construction of `esp_rtmp_video_data_t` at the C interface: the `pts`
argument is truncated to the 32-bit field declared in the header. -/
def mkVideoData (pts : Nat) (key_frame : Bool) (data : List Nat) :
    esp_rtmp_video_data_t :=
  { pts := pts % 2 ^ 32, key_frame := key_frame, data := data }

/-- Construction of `esp_rtmp_audio_data_t` at the C interface: the `pts`
argument is truncated to the 32-bit field declared in the header. -/
def mkAudioData (pts : Nat) (data : List Nat) : esp_rtmp_audio_data_t :=
  { pts := pts % 2 ^ 32, data := data }

/-- Error codes used by the push interface (`esp_media_err_t` subset named in
the header's return contracts). -/
inductive esp_media_err_t where
  | ESP_MEDIA_ERR_OK
  | ESP_MEDIA_ERR_INVALID_ARG
  | ESP_MEDIA_ERR_NO_MEM
  | ESP_MEDIA_ERR_WRONG_STATE
  | ESP_MEDIA_ERR_CONNECT_FAIL
  | ESP_MEDIA_ERR_WRITE_DATA
deriving DecidableEq, Repr

export esp_media_err_t (ESP_MEDIA_ERR_OK ESP_MEDIA_ERR_INVALID_ARG
  ESP_MEDIA_ERR_NO_MEM ESP_MEDIA_ERR_WRONG_STATE ESP_MEDIA_ERR_CONNECT_FAIL
  ESP_MEDIA_ERR_WRITE_DATA)

/-! ## Chunk Multiplexer

Modelled from the spec: the chunk multiplexer implementation is not under
the repository sources (only the header is); §4.2 of the design document
specifies `write_message`, which fragments a message payload into wire
chunks of at most `chunk_size` bytes, each tagged with its chunk-stream id,
and in-order reassembly keyed by the chunk-stream id. -/

/-- A wire chunk: chunk-stream id and the payload fragment it carries. -/
structure Chunk where
  csid : Nat
  fragment : List Nat
deriving DecidableEq, Repr

/-- Modelled from the spec: fragmentation of a message payload into
fragments of at most `chunkSize` bytes (§4.2, "internally fragments
`msg.payload` into chunks of at most `chunk_size` bytes").  A chunk size of
zero produces no chunks (the interface requires `chunk_size ≥ 1`). -/
def splitChunks (chunkSize : Nat) (payload : List Nat) : List (List Nat) :=
  if h : chunkSize = 0 ∨ payload = [] then []
  else
    payload.take chunkSize :: splitChunks chunkSize (payload.drop chunkSize)
termination_by payload.length
decreasing_by
  have h1 : ¬chunkSize = 0 := fun hc => h (Or.inl hc)
  have h2 : ¬payload = [] := fun hc => h (Or.inr hc)
  have hl : 0 < payload.length := List.length_pos.mpr h2
  simp only [List.length_drop]
  omega

/-- Modelled from the spec: `write_message` for one protocol message on
chunk-stream `csid` produces the fragments of the payload, each tagged with
the chunk-stream id (§4.2). -/
def write_message (csid : Nat) (chunkSize : Nat) (payload : List Nat) :
    List Chunk :=
  (splitChunks chunkSize payload).map (fun f => { csid := csid, fragment := f })

/-- Modelled from the spec: in-order reassembly of one message, keyed by the
chunk-stream id (§3, "must be reassembled in receipt order using the
chunk-stream id as the reassembly key"). -/
def reassemble (csid : Nat) (chunks : List Chunk) : List Nat :=
  ((chunks.filter (fun c => c.csid == csid)).map Chunk.fragment).flatten

/-! ## Per-chunk-stream timestamp delta coding

Modelled from the spec: the encoder implementation is not under the
repository sources; §3 and §4.4 specify that each chunk-stream's timestamp
is non-decreasing, that the encoder emits a timestamp delta per message,
and that a frame whose timestamp would violate monotonicity is rejected
with `InvalidArgument`.  Accumulation starts at the handshake epoch
(time zero). -/

/-- Modelled from the spec: encode a sequence of per-stream timestamps as
deltas against the previous timestamp (`prev` starts at the epoch, 0);
a timestamp earlier than the previous one is rejected (`none`). -/
def encodeDeltas (prev : Nat) : List Nat → Option (List Nat)
  | [] => some []
  | t :: ts =>
    if t < prev then none
    else (encodeDeltas t ts).map (fun ds => (t - prev) :: ds)

/-- Modelled from the spec: decode timestamp deltas by accumulating them
from the previous timestamp (starting at the handshake epoch). -/
def decodeDeltas (prev : Nat) : List Nat → List Nat
  | [] => []
  | d :: ds => (prev + d) :: decodeDeltas (prev + d) ds

/-- Non-decreasing from a given previous timestamp. -/
def monoFrom (prev : Nat) : List Nat → Bool
  | [] => true
  | t :: ts => decide (prev ≤ t) && monoFrom t ts

/-! ## Session state machine and push facade

Modelled from the spec: the session implementation behind the header's
`esp_rtmp_push_*` functions is not under the repository sources; §4.4,
§4.5 and §7 specify the states, the permitted transitions and the error
codes.  The transport and the server are abstracted as the booleans
`writeOk` (the transport write succeeded) and `serverAccepts` (the
handshake and the connect/createStream/publish round-trips were accepted
by the server). -/

/-- Session lifecycle states (§4.5). -/
inductive SessionState where
  | Idle
  | Ready
  | Connecting
  | Connected
  | Closing
  | Closed
  | Error
deriving DecidableEq, Repr

/-- Protocol messages produced by the command encoder and media
packetizer, as handed to the chunk multiplexer. -/
inductive Message where
  | command (name : String)
  | videoConfig (blob : List Nat)
  | videoCoded (key : Bool) (delta : Nat) (payload : List Nat)
  | audioConfig (blob : List Nat)
  | audioCoded (delta : Nat) (payload : List Nat)
deriving DecidableEq, Repr

def isVideoConfig : Message → Bool
  | .videoConfig _ => true
  | _ => false

def isVideoCoded : Message → Bool
  | .videoCoded _ _ _ => true
  | _ => false

def isAudioConfig : Message → Bool
  | .audioConfig _ => true
  | _ => false

def isAudioCoded : Message → Bool
  | .audioCoded _ _ => true
  | _ => false

/-- Configuration (`rtmp_push_cfg_t`): server url and maximum chunk size.
The thread configuration is an external collaborator and is not modelled. -/
structure rtmp_push_cfg_t where
  url : String
  chunk_size : Nat
deriving DecidableEq, Repr

/-- One RTMP push session (§3 data model): connection state, the captured
audio/video metadata, per-chunk-stream encoder state (last timestamp,
whether the one-time sequence header went out), and the log of protocol
messages handed to the transport. -/
structure Session where
  state : SessionState
  chunk_size : Nat
  audio_info : Option esp_rtmp_audio_info_t
  video_info : Option esp_rtmp_video_info_t
  lastAudioTs : Nat
  lastVideoTs : Nat
  audioHeaderSent : Bool
  videoHeaderSent : Bool
  sent : List Message
deriving DecidableEq, Repr

/-- Modelled from the spec: `esp_rtmp_push_open` creates an `Idle` session
from the configuration (§4.5 `open`). -/
def esp_rtmp_push_open (cfg : rtmp_push_cfg_t) : Session :=
  { state := .Idle, chunk_size := cfg.chunk_size, audio_info := none,
    video_info := none, lastAudioTs := 0, lastVideoTs := 0,
    audioHeaderSent := false, videoHeaderSent := false, sent := [] }

/-- Modelled from the spec: `esp_rtmp_push_set_audio_info` is permitted
only in `Idle`/`Ready`; it stores the info and fails with `WrongState`
if already `Connecting` or later (§4.5). -/
def esp_rtmp_push_set_audio_info (s : Session)
    (info : esp_rtmp_audio_info_t) : esp_media_err_t × Session :=
  match s.state with
  | .Idle => (ESP_MEDIA_ERR_OK,
      { s with audio_info := some info, state := .Ready })
  | .Ready => (ESP_MEDIA_ERR_OK, { s with audio_info := some info })
  | _ => (ESP_MEDIA_ERR_WRONG_STATE, s)

/-- Modelled from the spec: `esp_rtmp_push_set_video_info`, analogous to
the audio variant (§4.5). -/
def esp_rtmp_push_set_video_info (s : Session)
    (info : esp_rtmp_video_info_t) : esp_media_err_t × Session :=
  match s.state with
  | .Idle => (ESP_MEDIA_ERR_OK,
      { s with video_info := some info, state := .Ready })
  | .Ready => (ESP_MEDIA_ERR_OK, { s with video_info := some info })
  | _ => (ESP_MEDIA_ERR_WRONG_STATE, s)

/-- Modelled from the spec: `esp_rtmp_push_connect` is permitted only from
`Ready`; it runs the handshake engine and the connect → createStream →
publish command round-trips, advancing to `Connected` on server acceptance
or to `Error` on failure (§4.5).  The header's contract for connect allows
only `OK`, `InvalidArgument` and `ConnectFailure`, so a wrong-state call
fails with `InvalidArgument`. -/
def esp_rtmp_push_connect (s : Session) (serverAccepts : Bool) :
    esp_media_err_t × Session :=
  if s.state = .Ready then
    if serverAccepts then
      (ESP_MEDIA_ERR_OK,
        { s with state := .Connected,
                 sent := s.sent ++ [Message.command "connect",
                                    Message.command "createStream",
                                    Message.command "publish"] })
    else (ESP_MEDIA_ERR_CONNECT_FAIL, { s with state := .Error })
  else (ESP_MEDIA_ERR_INVALID_ARG, s)

/-- Modelled from the spec: the media packetizer for video (§4.4) — when
the one-time sequence header has not yet gone out, it is emitted first,
carrying exactly the bytes of `video_info.codec_spec_info`, then the coded
frame tagged by its key-frame flag, with the timestamp delta for the video
chunk-stream. -/
def packetizeVideo (vi : esp_rtmp_video_info_t) (headerSent : Bool)
    (delta : Nat) (d : esp_rtmp_video_data_t) : List Message :=
  (if headerSent then [] else [Message.videoConfig vi.codec_spec_info]) ++
    [Message.videoCoded d.key_frame delta d.data]

/-- Modelled from the spec: the media packetizer for audio (§4.4). -/
def packetizeAudio (ai : esp_rtmp_audio_info_t) (headerSent : Bool)
    (delta : Nat) (d : esp_rtmp_audio_data_t) : List Message :=
  (if headerSent then [] else [Message.audioConfig ai.codec_spec_info]) ++
    [Message.audioCoded delta d.data]

/-- Modelled from the spec: `esp_rtmp_push_video` is permitted only in
`Connected` (otherwise `WrongState`, without side effects); a timestamp
earlier than the previous video timestamp is rejected with
`InvalidArgument`; on transport failure the session transitions to `Error`
and the call surfaces `WriteFailure` (§4.4, §4.5, §7). -/
def esp_rtmp_push_video (s : Session) (d : esp_rtmp_video_data_t)
    (writeOk : Bool) : esp_media_err_t × Session :=
  match s.state with
  | .Connected =>
    match s.video_info with
    | none => (ESP_MEDIA_ERR_INVALID_ARG, s)
    | some vi =>
      if d.pts < s.lastVideoTs then (ESP_MEDIA_ERR_INVALID_ARG, s)
      else if writeOk then
        (ESP_MEDIA_ERR_OK,
          { s with lastVideoTs := d.pts, videoHeaderSent := true,
                   sent := s.sent ++ packetizeVideo vi s.videoHeaderSent
                             (d.pts - s.lastVideoTs) d })
      else (ESP_MEDIA_ERR_WRITE_DATA, { s with state := .Error })
  | _ => (ESP_MEDIA_ERR_WRONG_STATE, s)

/-- Modelled from the spec: `esp_rtmp_push_audio`, analogous to the video
variant (§4.4, §4.5, §7). -/
def esp_rtmp_push_audio (s : Session) (d : esp_rtmp_audio_data_t)
    (writeOk : Bool) : esp_media_err_t × Session :=
  match s.state with
  | .Connected =>
    match s.audio_info with
    | none => (ESP_MEDIA_ERR_INVALID_ARG, s)
    | some ai =>
      if d.pts < s.lastAudioTs then (ESP_MEDIA_ERR_INVALID_ARG, s)
      else if writeOk then
        (ESP_MEDIA_ERR_OK,
          { s with lastAudioTs := d.pts, audioHeaderSent := true,
                   sent := s.sent ++ packetizeAudio ai s.audioHeaderSent
                             (d.pts - s.lastAudioTs) d })
      else (ESP_MEDIA_ERR_WRITE_DATA, { s with state := .Error })
  | _ => (ESP_MEDIA_ERR_WRONG_STATE, s)

/-- Modelled from the spec: `esp_rtmp_push_close` is permitted from any
state, releases resources, moves the session to `Closed` and returns `OK`;
a repeated close is a no-op that still returns `OK` (§3, §4.5). -/
def esp_rtmp_push_close (s : Session) : esp_media_err_t × Session :=
  (ESP_MEDIA_ERR_OK, { s with state := .Closed })

/-- One public operation on a session, with its abstracted environment
outcome (transport write success, server acceptance). -/
inductive Op where
  | setAudio (info : esp_rtmp_audio_info_t)
  | setVideo (info : esp_rtmp_video_info_t)
  | connect (serverAccepts : Bool)
  | pushAudio (d : esp_rtmp_audio_data_t) (writeOk : Bool)
  | pushVideo (d : esp_rtmp_video_data_t) (writeOk : Bool)
  | close
deriving DecidableEq, Repr

/-- Apply one public operation, keeping the resulting session. -/
def applyOp (s : Session) : Op → Session
  | .setAudio info => (esp_rtmp_push_set_audio_info s info).2
  | .setVideo info => (esp_rtmp_push_set_video_info s info).2
  | .connect a => (esp_rtmp_push_connect s a).2
  | .pushAudio d w => (esp_rtmp_push_audio s d w).2
  | .pushVideo d w => (esp_rtmp_push_video s d w).2
  | .close => (esp_rtmp_push_close s).2

/-- Run a sequence of public operations. -/
def runOps (s : Session) (ops : List Op) : Session :=
  ops.foldl applyOp s

/-- Invariant maintained by every public operation: a `Ready` session has
at least one media info stored; in `Idle`/`Ready` no sequence header has
gone out yet; and for each media type, either no header has been sent and
no config/coded message of that type has been logged, or the header has
been sent and the log decomposes as messages before the unique config
message (none of them of that media type), the config message carrying
exactly the stored info blob, and messages after it containing no further
config of that type. -/
structure SessionInv (s : Session) : Prop where
  ready_info : s.state = .Ready → s.audio_info.isSome ∨ s.video_info.isSome
  fresh_video : s.state = .Idle ∨ s.state = .Ready → s.videoHeaderSent = false
  fresh_audio : s.state = .Idle ∨ s.state = .Ready → s.audioHeaderSent = false
  video_zero : s.videoHeaderSent = false →
    s.sent.countP isVideoConfig = 0 ∧ s.sent.countP isVideoCoded = 0
  video_once : s.videoHeaderSent = true → ∃ vi pre post,
    s.video_info = some vi ∧
    s.sent = pre ++ Message.videoConfig vi.codec_spec_info :: post ∧
    pre.countP isVideoConfig = 0 ∧ pre.countP isVideoCoded = 0 ∧
    post.countP isVideoConfig = 0
  audio_zero : s.audioHeaderSent = false →
    s.sent.countP isAudioConfig = 0 ∧ s.sent.countP isAudioCoded = 0
  audio_once : s.audioHeaderSent = true → ∃ ai pre post,
    s.audio_info = some ai ∧
    s.sent = pre ++ Message.audioConfig ai.codec_spec_info :: post ∧
    pre.countP isAudioConfig = 0 ∧ pre.countP isAudioCoded = 0 ∧
    post.countP isAudioConfig = 0

/-- A session is trapped once in `Error`: no sequence of further operations
changes it short of `close`, no sequence of further operations ever brings
it to `Connected`, and every further push call fails fast with `WrongState`
without writing anything. -/
def ErrorTrapped (s1 : Session) : Prop :=
  s1.state = .Error ∧
  (∀ ops, Op.close ∉ ops → runOps s1 ops = s1) ∧
  (∀ ops, (runOps s1 ops).state ≠ .Connected) ∧
  (∀ ops (da : esp_rtmp_audio_data_t) (dv : esp_rtmp_video_data_t)
      (w2 w3 : Bool), Op.close ∉ ops →
    esp_rtmp_push_audio (runOps s1 ops) da w2 =
      (ESP_MEDIA_ERR_WRONG_STATE, runOps s1 ops) ∧
    esp_rtmp_push_video (runOps s1 ops) dv w3 =
      (ESP_MEDIA_ERR_WRONG_STATE, runOps s1 ops))

/-! ## Concrete fixtures -/

def cfg0 : rtmp_push_cfg_t :=
  { url := "rtmp://192.168.1.2:1935/live/stream", chunk_size := 128 }

def audioI0 : esp_rtmp_audio_info_t :=
  { codec := .RTMP_AUDIO_CODEC_AAC, channel := 2, bits_per_sample := 16,
    sample_rate := 44100, codec_spec_info := [18, 16] }

def videoI0 : esp_rtmp_video_info_t :=
  { codec_spec_info := [1, 66, 0, 30, 255],
    codec := .RTMP_VIDEO_CODEC_H264, width := 640, height := 480, fps := 25 }

def audioD0 : esp_rtmp_audio_data_t := { pts := 0, data := [255, 241] }

def videoD0 : esp_rtmp_video_data_t :=
  { pts := 0, key_frame := true, data := [0, 0, 0, 1, 101] }

/-- Run a sequence of operations on a freshly opened session. -/
def runFromOpen (cfg : rtmp_push_cfg_t) (ops : List Op) : Session :=
  runOps (esp_rtmp_push_open cfg) ops

def sessionReady : Session :=
  runFromOpen cfg0 [Op.setAudio audioI0, Op.setVideo videoI0]

def sessionConnected : Session :=
  runFromOpen cfg0 [Op.setAudio audioI0, Op.setVideo videoI0,
    Op.connect true]

def sessionClosed : Session :=
  (esp_rtmp_push_close (esp_rtmp_push_open cfg0)).2

def sessionPushed : Session :=
  runFromOpen cfg0 [Op.setAudio audioI0, Op.setVideo videoI0,
    Op.connect true,
    Op.pushVideo { pts := 5, key_frame := true, data := [1] } true,
    Op.pushAudio { pts := 5, data := [2] } true]

def videoD2 : esp_rtmp_video_data_t :=
  { pts := 2, key_frame := false, data := [9] }

def audioD2 : esp_rtmp_audio_data_t := { pts := 2, data := [9] }

def opsAV : List Op :=
  [Op.setAudio audioI0, Op.setVideo videoI0, Op.connect true,
   Op.pushVideo videoD0 true, Op.pushAudio audioD0 true]

/-! ## Command Encoder

Modelled from the spec: the command encoder implementation is not under
the repository sources; §4.3 specifies `encode_command(name, args)` using
a compact, self-describing binary encoding (type tag per value) for the
scalar types number, boolean, UTF-8 string and null, and ordered key-value
object maps, with responses decoded the same way. -/

mutual
/-- A value of the self-describing command encoding: number (its 8-byte
payload), boolean, UTF-8 string (its bytes), null, or an ordered
key-value object. -/
inductive AmfValue : Type where
  | number (payload : Nat)
  | boolean (b : Bool)
  | str (bytes : List Nat)
  | nullValue
  | object (props : AmfProps)

/-- The ordered key-value pairs of an object. -/
inductive AmfProps : Type where
  | nil
  | cons (name : List Nat) (value : AmfValue) (rest : AmfProps)
end

/-- Big-endian encoding of `n` on `k` bytes. -/
def encBE : Nat → Nat → List Nat
  | 0, _ => []
  | k + 1, n => encBE k (n / 256) ++ [n % 256]

/-- Big-endian accumulation of a byte list onto `acc`. -/
def decBE (acc : Nat) : List Nat → Nat
  | [] => acc
  | b :: bs => decBE (acc * 256 + b) bs

mutual
/-- Modelled from the spec: the self-describing binary encoding of one
value — a type tag byte, then the value payload (8-byte big-endian number
payload; one boolean byte; 2-byte length-prefixed string bytes; bare null
tag; object properties closed by the end marker). -/
def encodeVal : AmfValue → List Nat
  | .number p => 0 :: encBE 8 p
  | .boolean b => [1, if b then 1 else 0]
  | .str s => 2 :: encBE 2 s.length ++ s
  | .nullValue => [5]
  | .object ps => 3 :: encodeProps ps ++ [0, 0, 9]

/-- Encoding of object properties: each a 2-byte length-prefixed name
followed by the encoded value. -/
def encodeProps : AmfProps → List Nat
  | .nil => []
  | .cons k v rest => encBE 2 k.length ++ k ++ encodeVal v ++ encodeProps rest
end

mutual
/-- Representational well-formedness at the C interface: a number payload
fits 8 bytes, a string length fits the 2-byte length prefix, and an object
property name is non-empty (the empty name is the object end marker) and
fits its length prefix. -/
def wfVal : AmfValue → Bool
  | .number p => decide (p < 2 ^ 64)
  | .boolean _ => true
  | .str s => decide (s.length < 2 ^ 16)
  | .nullValue => true
  | .object ps => wfProps ps

def wfProps : AmfProps → Bool
  | .nil => true
  | .cons k v rest =>
    decide (0 < k.length) && decide (k.length < 2 ^ 16) && wfVal v &&
      wfProps rest
end

mutual
/-- Decoder fuel sufficient for one value. -/
def fuelVal : AmfValue → Nat
  | .number _ => 1
  | .boolean _ => 1
  | .str _ => 1
  | .nullValue => 1
  | .object ps => fuelProps ps + 1

/-- Decoder fuel sufficient for object properties. -/
def fuelProps : AmfProps → Nat
  | .nil => 1
  | .cons _ v rest => fuelVal v + fuelProps rest + 1
end

mutual
/-- Modelled from the spec: decoding of one self-describing value (the way
responses are decoded, §4.3), driven by the type tag byte; returns the
value and the unconsumed bytes, or `none` on malformed input. -/
def decodeVal : Nat → List Nat → Option (AmfValue × List Nat)
  | _ + 1, 0 :: rest =>
    if 8 ≤ rest.length then
      some (.number (decBE 0 (rest.take 8)), rest.drop 8)
    else none
  | _ + 1, 1 :: b :: rest => some (.boolean (b != 0), rest)
  | _ + 1, 2 :: b1 :: b2 :: rest =>
    if b1 * 256 + b2 ≤ rest.length then
      some (.str (rest.take (b1 * 256 + b2)), rest.drop (b1 * 256 + b2))
    else none
  | _ + 1, 5 :: rest => some (.nullValue, rest)
  | fuel + 1, 3 :: rest =>
    match decodeProps fuel rest with
    | some (ps, r) => some (.object ps, r)
    | none => none
  | _, _ => none

/-- Decoding of object properties up to the end marker. -/
def decodeProps : Nat → List Nat → Option (AmfProps × List Nat)
  | fuel + 1, b1 :: b2 :: rest =>
    if b1 * 256 + b2 = 0 then
      match rest with
      | 9 :: r => some (.nil, r)
      | _ => none
    else if b1 * 256 + b2 ≤ rest.length then
      match decodeVal fuel (rest.drop (b1 * 256 + b2)) with
      | some (v, r1) =>
        match decodeProps fuel r1 with
        | some (ps, r2) => some (.cons (rest.take (b1 * 256 + b2)) v ps, r2)
        | none => none
      | none => none
    else none
  | _, _ => none
end

/-- Fuel sufficient for an argument list. -/
def fuelArgs : List AmfValue → Nat
  | [] => 0
  | v :: vs => fuelVal v + fuelArgs vs + 1

/-- Decoding of the argument values until the input is exhausted. -/
def decodeArgs : Nat → List Nat → Option (List AmfValue)
  | _, [] => some []
  | 0, _ :: _ => none
  | fuel + 1, b :: bs =>
    match decodeVal (fuel + 1) (b :: bs) with
    | some (v, r) =>
      match decodeArgs fuel r with
      | some vs => some (v :: vs)
      | none => none
    | none => none

/-- Modelled from the spec: `encode_command(name, args)` — the command
name as an encoded string followed by the encoded arguments (§4.3). -/
def encode_command (name : List Nat) (args : List AmfValue) : List Nat :=
  encodeVal (.str name) ++ (args.map encodeVal).flatten

/-- Decoding of an encoded command back into its name and arguments. -/
def decode_command (fuel : Nat) (bs : List Nat) :
    Option (List Nat × List AmfValue) :=
  match decodeVal fuel bs with
  | some (.str name, r) =>
    match decodeArgs fuel r with
    | some args => some (name, args)
    | none => none
  | _ => none

/-- "publish" in ASCII bytes. -/
def cmdName0 : List Nat := [112, 117, 98, 108, 105, 115, 104]

/-- One argument of each supported shape: number, boolean, string, null
and a nested object. -/
def cmdArgs0 : List AmfValue :=
  [.number 4660, .boolean true, .str [108, 105, 118, 101], .nullValue,
   .object (.cons [99, 111, 100, 101] (.number 7) .nil)]

/-! ## Chunk fragmentation lemmas -/

theorem splitChunks_join (chunkSize : Nat) (payload : List Nat)
    (h : 1 ≤ chunkSize) : (splitChunks chunkSize payload).flatten = payload := by
  induction payload using splitChunks.induct chunkSize with
  | case1 payload hp =>
    rcases hp with hp | hp
    · omega
    · simp [splitChunks, hp]
  | case2 payload hp ih =>
    rw [splitChunks, dif_neg hp]
    simp [ih, List.take_append_drop]

theorem splitChunks_le (chunkSize : Nat) (payload : List Nat) :
    ∀ f ∈ splitChunks chunkSize payload, f.length ≤ chunkSize := by
  induction payload using splitChunks.induct chunkSize with
  | case1 payload hp =>
    intro f hf
    rw [splitChunks, dif_pos hp] at hf
    simp at hf
  | case2 payload hp ih =>
    intro f hf
    rw [splitChunks, dif_neg hp] at hf
    rcases List.mem_cons.mp hf with hf | hf
    · subst hf
      simpa using List.length_take_le chunkSize payload
    · exact ih f hf

theorem open_inv (cfg : rtmp_push_cfg_t) :
    SessionInv (esp_rtmp_push_open cfg) := by
  constructor <;> simp [esp_rtmp_push_open]

theorem applyOp_inv (s : Session) (op : Op) (h : SessionInv s) :
    SessionInv (applyOp s op) := by
  obtain ⟨ri, fv, fa, vz, vo, az, ao⟩ := h
  cases op with
  | setAudio info =>
    cases hs : s.state with
    | Idle =>
      simp only [applyOp, esp_rtmp_push_set_audio_info, hs]
      exact ⟨fun _ => Or.inl rfl, fun _ => fv (Or.inl hs),
        fun _ => fa (Or.inl hs), vz, vo, az,
        fun hh => absurd (fa (Or.inl hs) ▸ hh) (by simp [fa (Or.inl hs)])⟩
    | Ready =>
      simp only [applyOp, esp_rtmp_push_set_audio_info, hs]
      exact ⟨fun _ => Or.inl rfl, fun _ => fv (Or.inr hs),
        fun _ => fa (Or.inr hs), vz, vo, az,
        fun hh => absurd hh (by simp [fa (Or.inr hs)])⟩
    | Connecting => simpa [applyOp, esp_rtmp_push_set_audio_info, hs]
        using ⟨ri, fv, fa, vz, vo, az, ao⟩
    | Connected => simpa [applyOp, esp_rtmp_push_set_audio_info, hs]
        using ⟨ri, fv, fa, vz, vo, az, ao⟩
    | Closing => simpa [applyOp, esp_rtmp_push_set_audio_info, hs]
        using ⟨ri, fv, fa, vz, vo, az, ao⟩
    | Closed => simpa [applyOp, esp_rtmp_push_set_audio_info, hs]
        using ⟨ri, fv, fa, vz, vo, az, ao⟩
    | Error => simpa [applyOp, esp_rtmp_push_set_audio_info, hs]
        using ⟨ri, fv, fa, vz, vo, az, ao⟩
  | setVideo info =>
    cases hs : s.state with
    | Idle =>
      simp only [applyOp, esp_rtmp_push_set_video_info, hs]
      exact ⟨fun _ => Or.inr rfl, fun _ => fv (Or.inl hs),
        fun _ => fa (Or.inl hs), vz,
        fun hh => absurd hh (by simp [fv (Or.inl hs)]), az, ao⟩
    | Ready =>
      simp only [applyOp, esp_rtmp_push_set_video_info, hs]
      exact ⟨fun _ => Or.inr rfl, fun _ => fv (Or.inr hs),
        fun _ => fa (Or.inr hs), vz,
        fun hh => absurd hh (by simp [fv (Or.inr hs)]), az, ao⟩
    | Connecting => simpa [applyOp, esp_rtmp_push_set_video_info, hs]
        using ⟨ri, fv, fa, vz, vo, az, ao⟩
    | Connected => simpa [applyOp, esp_rtmp_push_set_video_info, hs]
        using ⟨ri, fv, fa, vz, vo, az, ao⟩
    | Closing => simpa [applyOp, esp_rtmp_push_set_video_info, hs]
        using ⟨ri, fv, fa, vz, vo, az, ao⟩
    | Closed => simpa [applyOp, esp_rtmp_push_set_video_info, hs]
        using ⟨ri, fv, fa, vz, vo, az, ao⟩
    | Error => simpa [applyOp, esp_rtmp_push_set_video_info, hs]
        using ⟨ri, fv, fa, vz, vo, az, ao⟩
  | connect a =>
    by_cases hs : s.state = .Ready
    · cases a with
      | true =>
        simp only [applyOp, esp_rtmp_push_connect, hs, if_pos rfl, if_true]
        have hv := fv (Or.inr hs)
        have ha := fa (Or.inr hs)
        refine ⟨by simp, by simp, by simp, ?_, ?_, ?_, ?_⟩
        · intro _
          have := vz hv
          simp [List.countP_append, this.1, this.2, isVideoConfig,
            isVideoCoded, List.countP_cons]
        · intro hh
          simp only at hh
          rw [hv] at hh
          exact absurd hh (by simp)
        · intro _
          have := az ha
          simp [List.countP_append, this.1, this.2, isAudioConfig,
            isAudioCoded, List.countP_cons]
        · intro hh
          simp only at hh
          rw [ha] at hh
          exact absurd hh (by simp)
      | false =>
        simp only [applyOp, esp_rtmp_push_connect, hs, if_pos rfl,
          Bool.false_eq_true, if_false]
        exact ⟨by simp, by simp, by simp, vz, vo, az, ao⟩
    · simpa [applyOp, esp_rtmp_push_connect, hs]
        using ⟨ri, fv, fa, vz, vo, az, ao⟩
  | pushVideo d w =>
    by_cases hs : s.state = .Connected
    · cases hvi : s.video_info with
      | none => simpa [applyOp, esp_rtmp_push_video, hs, hvi]
          using ⟨ri, fv, fa, vz, vo, az, ao⟩
      | some vi =>
        by_cases hts : d.pts < s.lastVideoTs
        · simpa [applyOp, esp_rtmp_push_video, hs, hvi, hts]
            using ⟨ri, fv, fa, vz, vo, az, ao⟩
        · cases w with
          | false =>
            simp only [applyOp, esp_rtmp_push_video, hs, hvi, if_neg hts,
              Bool.false_eq_true, if_false]
            refine ⟨by simp, by simp, by simp, vz, ?_, az, ao⟩
            intro hh
            obtain ⟨vi2, pre, post, hvi2, hdec, p1, p2, p3⟩ := vo hh
            rw [hvi] at hvi2
            exact ⟨vi2, pre, post, hvi2, hdec, p1, p2, p3⟩
          | true =>
            simp only [applyOp, esp_rtmp_push_video, hs, hvi, if_neg hts,
              if_true]
            refine ⟨by simp [hs], by simp [hs], by simp [hs], by simp, ?_,
              ?_, ?_⟩
            · intro _
              cases hhv : s.videoHeaderSent with
              | false =>
                obtain ⟨c1, c2⟩ := vz hhv
                refine ⟨vi, s.sent, [Message.videoCoded d.key_frame
                  (d.pts - s.lastVideoTs) d.data], rfl, ?_, c1, c2, ?_⟩
                · simp [packetizeVideo, hhv]
                · simp [isVideoConfig, List.countP_cons]
              | true =>
                obtain ⟨vi2, pre, post, hvi2, hdec, p1, p2, p3⟩ := vo hhv
                rw [hvi] at hvi2
                cases hvi2
                refine ⟨vi, pre, post ++ [Message.videoCoded d.key_frame
                  (d.pts - s.lastVideoTs) d.data], rfl, ?_, p1, p2, ?_⟩
                · simp [packetizeVideo, hhv, hdec]
                · simp [List.countP_append, p3, isVideoConfig,
                    List.countP_cons]
            · intro hh
              obtain ⟨c1, c2⟩ := az hh
              constructor <;>
                simp [List.countP_append, c1, c2, packetizeVideo,
                  isAudioConfig, isAudioCoded, List.countP_cons]
            · intro hh
              obtain ⟨ai, pre, post, hai, hdec, p1, p2, p3⟩ := ao hh
              refine ⟨ai, pre, post ++ packetizeVideo vi s.videoHeaderSent
                (d.pts - s.lastVideoTs) d, hai, ?_, p1, p2, ?_⟩
              · simp [hdec]
              · simp only [List.countP_append, p3, packetizeVideo]
                cases s.videoHeaderSent <;>
                  simp [isAudioConfig, List.countP_cons]
    · simpa [applyOp, esp_rtmp_push_video, hs,
        show s.state ≠ .Connected from hs]
        using ⟨ri, fv, fa, vz, vo, az, ao⟩
  | pushAudio d w =>
    by_cases hs : s.state = .Connected
    · cases hai : s.audio_info with
      | none => simpa [applyOp, esp_rtmp_push_audio, hs, hai]
          using ⟨ri, fv, fa, vz, vo, az, ao⟩
      | some ai =>
        by_cases hts : d.pts < s.lastAudioTs
        · simpa [applyOp, esp_rtmp_push_audio, hs, hai, hts]
            using ⟨ri, fv, fa, vz, vo, az, ao⟩
        · cases w with
          | false =>
            simp only [applyOp, esp_rtmp_push_audio, hs, hai, if_neg hts,
              Bool.false_eq_true, if_false]
            refine ⟨by simp, by simp, by simp, vz, vo, az, ?_⟩
            intro hh
            obtain ⟨ai2, pre, post, hai2, hdec, p1, p2, p3⟩ := ao hh
            rw [hai] at hai2
            exact ⟨ai2, pre, post, hai2, hdec, p1, p2, p3⟩
          | true =>
            simp only [applyOp, esp_rtmp_push_audio, hs, hai, if_neg hts,
              if_true]
            refine ⟨by simp [hs], by simp [hs], by simp [hs], ?_, ?_,
              by simp, ?_⟩
            · intro hh
              obtain ⟨c1, c2⟩ := vz hh
              constructor <;>
                simp [List.countP_append, c1, c2, packetizeAudio,
                  isVideoConfig, isVideoCoded, List.countP_cons]
            · intro hh
              obtain ⟨vi, pre, post, hvi, hdec, p1, p2, p3⟩ := vo hh
              refine ⟨vi, pre, post ++ packetizeAudio ai s.audioHeaderSent
                (d.pts - s.lastAudioTs) d, hvi, ?_, p1, p2, ?_⟩
              · simp [hdec]
              · simp only [List.countP_append, p3, packetizeAudio]
                cases s.audioHeaderSent <;>
                  simp [isVideoConfig, List.countP_cons]
            · intro _
              cases hha : s.audioHeaderSent with
              | false =>
                obtain ⟨c1, c2⟩ := az hha
                refine ⟨ai, s.sent, [Message.audioCoded
                  (d.pts - s.lastAudioTs) d.data], rfl, ?_, c1, c2, ?_⟩
                · simp [packetizeAudio, hha]
                · simp [isAudioConfig, List.countP_cons]
              | true =>
                obtain ⟨ai2, pre, post, hai2, hdec, p1, p2, p3⟩ := ao hha
                rw [hai] at hai2
                cases hai2
                refine ⟨ai, pre, post ++ [Message.audioCoded
                  (d.pts - s.lastAudioTs) d.data], rfl, ?_, p1, p2, ?_⟩
                · simp [packetizeAudio, hha, hdec]
                · simp [List.countP_append, p3, isAudioConfig,
                    List.countP_cons]
    · simpa [applyOp, esp_rtmp_push_audio, hs,
        show s.state ≠ .Connected from hs]
        using ⟨ri, fv, fa, vz, vo, az, ao⟩
  | close =>
    simp only [applyOp, esp_rtmp_push_close]
    exact ⟨by simp, by simp, by simp, vz, vo, az, ao⟩

theorem runOps_inv (s : Session) (ops : List Op) (h : SessionInv s) :
    SessionInv (runOps s ops) := by
  induction ops generalizing s with
  | nil => exact h
  | cons op ops ih => exact ih _ (applyOp_inv s op h)
/-! ## Helper lemmas for the state machine -/

theorem push_audio_not_connected (s : Session) (d : esp_rtmp_audio_data_t)
    (w : Bool) (h : s.state ≠ .Connected) :
    esp_rtmp_push_audio s d w = (ESP_MEDIA_ERR_WRONG_STATE, s) := by
  cases hs : s.state <;> simp_all [esp_rtmp_push_audio]

theorem push_video_not_connected (s : Session) (d : esp_rtmp_video_data_t)
    (w : Bool) (h : s.state ≠ .Connected) :
    esp_rtmp_push_video s d w = (ESP_MEDIA_ERR_WRONG_STATE, s) := by
  cases hs : s.state <;> simp_all [esp_rtmp_push_video]

theorem applyOp_error_frozen (s : Session) (op : Op) (h : s.state = .Error)
    (hop : op ≠ Op.close) : applyOp s op = s := by
  cases op with
  | setAudio info => simp [applyOp, esp_rtmp_push_set_audio_info, h]
  | setVideo info => simp [applyOp, esp_rtmp_push_set_video_info, h]
  | connect a => simp [applyOp, esp_rtmp_push_connect, h]
  | pushAudio d w => simp [applyOp, esp_rtmp_push_audio, h]
  | pushVideo d w => simp [applyOp, esp_rtmp_push_video, h]
  | close => exact absurd rfl hop

theorem applyOp_closed_frozen (s : Session) (op : Op)
    (h : s.state = .Closed) : applyOp s op = s := by
  cases op with
  | setAudio info => simp [applyOp, esp_rtmp_push_set_audio_info, h]
  | setVideo info => simp [applyOp, esp_rtmp_push_set_video_info, h]
  | connect a => simp [applyOp, esp_rtmp_push_connect, h]
  | pushAudio d w => simp [applyOp, esp_rtmp_push_audio, h]
  | pushVideo d w => simp [applyOp, esp_rtmp_push_video, h]
  | close =>
    cases s
    simp only [applyOp, esp_rtmp_push_close]
    simp_all

theorem runOps_error_no_close (s : Session) (ops : List Op)
    (h : s.state = .Error) (hops : Op.close ∉ ops) : runOps s ops = s := by
  induction ops with
  | nil => rfl
  | cons op ops ih =>
    have hop : op ≠ Op.close := fun he => hops (he ▸ List.mem_cons_self op ops)
    have hstep : applyOp s op = s := applyOp_error_frozen s op h hop
    calc runOps s (op :: ops) = runOps (applyOp s op) ops := rfl
      _ = runOps s ops := by rw [hstep]
      _ = s := ih (fun hm => hops (List.mem_cons_of_mem op hm))

theorem runOps_dead_state (s : Session) (ops : List Op)
    (h : s.state = .Error ∨ s.state = .Closed) :
    (runOps s ops).state = .Error ∨ (runOps s ops).state = .Closed := by
  induction ops generalizing s with
  | nil => exact h
  | cons op ops ih =>
    rcases h with h | h
    · by_cases hop : op = Op.close
      · subst hop
        exact ih _ (Or.inr (by simp [applyOp, esp_rtmp_push_close]))
      · rw [show runOps s (op :: ops) = runOps (applyOp s op) ops from rfl,
          applyOp_error_frozen s op h hop]
        exact ih _ (Or.inl h)
    · rw [show runOps s (op :: ops) = runOps (applyOp s op) ops from rfl,
        applyOp_closed_frozen s op h]
      exact ih _ (Or.inr h)

theorem error_trapped_of_error (s1 : Session) (h : s1.state = .Error) :
    ErrorTrapped s1 := by
  refine ⟨h, fun ops hops => runOps_error_no_close s1 ops h hops,
    fun ops => ?_, fun ops da dv w2 w3 hops => ?_⟩
  · rcases runOps_dead_state s1 ops (Or.inl h) with hd | hd <;> simp [hd]
  · rw [runOps_error_no_close s1 ops h hops]
    exact ⟨push_audio_not_connected s1 da w2 (by simp [h]),
      push_video_not_connected s1 dv w3 (by simp [h])⟩

theorem push_video_failure_state (s : Session) (d : esp_rtmp_video_data_t)
    (w : Bool) (h : (esp_rtmp_push_video s d w).1 = ESP_MEDIA_ERR_WRITE_DATA) :
    (esp_rtmp_push_video s d w).2.state = .Error := by
  by_cases hs : s.state = .Connected
  · cases hvi : s.video_info with
    | none => simp [esp_rtmp_push_video, hs, hvi] at h
    | some vi =>
      by_cases hts : d.pts < s.lastVideoTs
      · simp [esp_rtmp_push_video, hs, hvi, hts] at h
      · cases w with
        | true => simp [esp_rtmp_push_video, hs, hvi, hts] at h
        | false => simp [esp_rtmp_push_video, hs, hvi, hts]
  · rw [push_video_not_connected s d w hs] at h
    simp at h

theorem push_audio_failure_state (s : Session) (d : esp_rtmp_audio_data_t)
    (w : Bool) (h : (esp_rtmp_push_audio s d w).1 = ESP_MEDIA_ERR_WRITE_DATA) :
    (esp_rtmp_push_audio s d w).2.state = .Error := by
  by_cases hs : s.state = .Connected
  · cases hai : s.audio_info with
    | none => simp [esp_rtmp_push_audio, hs, hai] at h
    | some ai =>
      by_cases hts : d.pts < s.lastAudioTs
      · simp [esp_rtmp_push_audio, hs, hai, hts] at h
      · cases w with
        | true => simp [esp_rtmp_push_audio, hs, hai, hts] at h
        | false => simp [esp_rtmp_push_audio, hs, hai, hts]
  · rw [push_audio_not_connected s d w hs] at h
    simp at h

theorem encodeDeltas_decode (prev : Nat) (ts : List Nat)
    (h : monoFrom prev ts = true) :
    ∃ ds, encodeDeltas prev ts = some ds ∧ decodeDeltas prev ds = ts := by
  induction ts generalizing prev with
  | nil => exact ⟨[], rfl, rfl⟩
  | cons t rest ih =>
    simp only [monoFrom, Bool.and_eq_true, decide_eq_true_eq] at h
    obtain ⟨h1, h2⟩ := h
    obtain ⟨ds, he, hd⟩ := ih t h2
    refine ⟨(t - prev) :: ds, ?_, ?_⟩
    · simp [encodeDeltas, Nat.not_lt.mpr h1, he]
    · simp [decodeDeltas, Nat.add_sub_cancel' h1, hd]

theorem reassemble_write (csid n : Nat) (payload : List Nat) :
    reassemble csid (write_message csid n payload) =
      (splitChunks n payload).flatten := by
  unfold reassemble write_message
  induction splitChunks n payload with
  | nil => rfl
  | cons c cs ih => simp_all

/-! ## Claim theorems -/

/-- C1: for every chunk size `N ≥ 1` and every message payload, the chunk
multiplexer's fragmentation into wire chunks of at most `N` payload bytes,
followed by in-order reassembly keyed by the chunk-stream id, reproduces
the original payload exactly, and no fragment exceeds `N` bytes. -/
theorem claim_C1_chunk_roundtrip (csid chunkSize : Nat) (payload : List Nat)
    (h : 1 ≤ chunkSize) :
    reassemble csid (write_message csid chunkSize payload) = payload ∧
    ∀ c ∈ write_message csid chunkSize payload,
      c.fragment.length ≤ chunkSize := by
  constructor
  · rw [reassemble_write, splitChunks_join chunkSize payload h]
  · intro c hc
    obtain ⟨f, hf, hco⟩ := List.mem_map.mp hc
    rw [← hco]
    exact splitChunks_le chunkSize payload f hf

theorem claim_C1_witness :
    reassemble 4 (write_message 4 2 [1, 2, 3, 4, 5]) = [1, 2, 3, 4, 5] ∧
    ∀ c ∈ write_message 4 2 [1, 2, 3, 4, 5], c.fragment.length ≤ 2 :=
  claim_C1_chunk_roundtrip 4 2 [1, 2, 3, 4, 5] (by decide)

/-- C2: for every frame sequence with non-decreasing presentation
timestamps, the per-chunk-stream timestamp deltas, decoded and accumulated
from the handshake epoch, reproduce the original timestamps exactly; a
frame whose timestamp is earlier than the previous one on the same stream
is rejected with `InvalidArgument` (delta encoder refusal, and both push
calls reject without changing the session). -/
theorem claim_C2_timestamp_roundtrip (ts : List Nat) (prev t : Nat)
    (rest : List Nat) (s : Session) (dv : esp_rtmp_video_data_t)
    (da : esp_rtmp_audio_data_t) (w : Bool) :
    (monoFrom 0 ts = true →
      ∃ ds, encodeDeltas 0 ts = some ds ∧ decodeDeltas 0 ds = ts) ∧
    (t < prev → encodeDeltas prev (t :: rest) = none) ∧
    (s.state = .Connected → dv.pts < s.lastVideoTs →
      esp_rtmp_push_video s dv w = (ESP_MEDIA_ERR_INVALID_ARG, s)) ∧
    (s.state = .Connected → da.pts < s.lastAudioTs →
      esp_rtmp_push_audio s da w = (ESP_MEDIA_ERR_INVALID_ARG, s)) := by
  refine ⟨encodeDeltas_decode 0 ts, fun h => by simp [encodeDeltas, h],
    ?_, ?_⟩
  · intro hs hts
    cases hvi : s.video_info with
    | none => simp [esp_rtmp_push_video, hs, hvi]
    | some vi => simp [esp_rtmp_push_video, hs, hvi, hts]
  · intro hs hts
    cases hai : s.audio_info with
    | none => simp [esp_rtmp_push_audio, hs, hai]
    | some ai => simp [esp_rtmp_push_audio, hs, hai, hts]

theorem claim_C2_witness :
    (∃ ds, encodeDeltas 0 [3, 3, 7] = some ds ∧
      decodeDeltas 0 ds = [3, 3, 7]) ∧
    encodeDeltas 5 [2] = none ∧
    esp_rtmp_push_video sessionPushed videoD2 true =
      (ESP_MEDIA_ERR_INVALID_ARG, sessionPushed) ∧
    esp_rtmp_push_audio sessionPushed audioD2 true =
      (ESP_MEDIA_ERR_INVALID_ARG, sessionPushed) := by
  obtain ⟨h1, h2, h3, h4⟩ := claim_C2_timestamp_roundtrip [3, 3, 7] 5 2 []
    sessionPushed videoD2 audioD2 true
  exact ⟨h1 (by decide), h2 (by decide), h3 (by decide) (by decide),
    h4 (by decide) (by decide)⟩

/-- C3: in every session state other than `Connected`, `push_audio` and
`push_video` return `WrongState` and leave the session (state, encoder
state, transport log) completely unchanged; in particular every push
issued before connect has completed returns `WrongState`. -/
theorem claim_C3_push_wrong_state (s : Session)
    (da : esp_rtmp_audio_data_t) (dv : esp_rtmp_video_data_t) (w : Bool)
    (h : s.state ≠ .Connected) :
    esp_rtmp_push_audio s da w = (ESP_MEDIA_ERR_WRONG_STATE, s) ∧
    esp_rtmp_push_video s dv w = (ESP_MEDIA_ERR_WRONG_STATE, s) :=
  ⟨push_audio_not_connected s da w h, push_video_not_connected s dv w h⟩

theorem claim_C3_witness :
    esp_rtmp_push_audio sessionReady audioD0 true =
      (ESP_MEDIA_ERR_WRONG_STATE, sessionReady) ∧
    esp_rtmp_push_video sessionReady videoD0 true =
      (ESP_MEDIA_ERR_WRONG_STATE, sessionReady) :=
  claim_C3_push_wrong_state sessionReady audioD0 videoD0 true (by decide)

/-- C4: in every run that pushes at least one video frame, exactly one
video configuration (sequence-header) message is emitted, it precedes the
first coded video message, and its payload is exactly the stored
`video_info.codec_spec_info`; the analogous property holds for audio. -/
theorem claim_C4_sequence_header_once (cfg : rtmp_push_cfg_t)
    (ops : List Op) :
    (1 ≤ (runFromOpen cfg ops).sent.countP isVideoCoded →
      (runFromOpen cfg ops).sent.countP isVideoConfig = 1 ∧
      ∃ vi pre post, (runFromOpen cfg ops).video_info = some vi ∧
        (runFromOpen cfg ops).sent =
          pre ++ Message.videoConfig vi.codec_spec_info :: post ∧
        pre.countP isVideoCoded = 0 ∧ pre.countP isVideoConfig = 0 ∧
        post.countP isVideoConfig = 0) ∧
    (1 ≤ (runFromOpen cfg ops).sent.countP isAudioCoded →
      (runFromOpen cfg ops).sent.countP isAudioConfig = 1 ∧
      ∃ ai pre post, (runFromOpen cfg ops).audio_info = some ai ∧
        (runFromOpen cfg ops).sent =
          pre ++ Message.audioConfig ai.codec_spec_info :: post ∧
        pre.countP isAudioCoded = 0 ∧ pre.countP isAudioConfig = 0 ∧
        post.countP isAudioConfig = 0) := by
  have I : SessionInv (runFromOpen cfg ops) :=
    runOps_inv _ ops (open_inv cfg)
  constructor
  · intro h
    cases hv : (runFromOpen cfg ops).videoHeaderSent with
    | false =>
      obtain ⟨z1, z2⟩ := I.video_zero hv
      omega
    | true =>
      obtain ⟨vi, pre, post, h1, h2, p1, p2, p3⟩ := I.video_once hv
      refine ⟨?_, vi, pre, post, h1, h2, p2, p1, p3⟩
      rw [h2]
      simp [List.countP_append, List.countP_cons, p1, p3, isVideoConfig]
  · intro h
    cases ha : (runFromOpen cfg ops).audioHeaderSent with
    | false =>
      obtain ⟨z1, z2⟩ := I.audio_zero ha
      omega
    | true =>
      obtain ⟨ai, pre, post, h1, h2, p1, p2, p3⟩ := I.audio_once ha
      refine ⟨?_, ai, pre, post, h1, h2, p2, p1, p3⟩
      rw [h2]
      simp [List.countP_append, List.countP_cons, p1, p3, isAudioConfig]

theorem claim_C4_witness :
    ((runFromOpen cfg0 opsAV).sent.countP isVideoConfig = 1 ∧
      ∃ vi pre post, (runFromOpen cfg0 opsAV).video_info = some vi ∧
        (runFromOpen cfg0 opsAV).sent =
          pre ++ Message.videoConfig vi.codec_spec_info :: post ∧
        pre.countP isVideoCoded = 0 ∧ pre.countP isVideoConfig = 0 ∧
        post.countP isVideoConfig = 0) ∧
    ((runFromOpen cfg0 opsAV).sent.countP isAudioConfig = 1 ∧
      ∃ ai pre post, (runFromOpen cfg0 opsAV).audio_info = some ai ∧
        (runFromOpen cfg0 opsAV).sent =
          pre ++ Message.audioConfig ai.codec_spec_info :: post ∧
        pre.countP isAudioCoded = 0 ∧ pre.countP isAudioConfig = 0 ∧
        post.countP isAudioConfig = 0) :=
  ⟨(claim_C4_sequence_header_once cfg0 opsAV).1 (by decide),
   (claim_C4_sequence_header_once cfg0 opsAV).2 (by decide)⟩

/-- C6: `set_audio_info`/`set_video_info` in `Connecting` or any later
state fail with `WrongState` and do not store the supplied info (the
session is unchanged); in `Idle` and `Ready` they store the info and
return `OK`. -/
theorem claim_C6_set_info_gate (s : Session) (ai : esp_rtmp_audio_info_t)
    (vi : esp_rtmp_video_info_t) :
    (s.state ≠ .Idle → s.state ≠ .Ready →
      esp_rtmp_push_set_audio_info s ai = (ESP_MEDIA_ERR_WRONG_STATE, s) ∧
      esp_rtmp_push_set_video_info s vi =
        (ESP_MEDIA_ERR_WRONG_STATE, s)) ∧
    (s.state = .Idle ∨ s.state = .Ready →
      (esp_rtmp_push_set_audio_info s ai).1 = ESP_MEDIA_ERR_OK ∧
      (esp_rtmp_push_set_audio_info s ai).2.audio_info = some ai ∧
      (esp_rtmp_push_set_video_info s vi).1 = ESP_MEDIA_ERR_OK ∧
      (esp_rtmp_push_set_video_info s vi).2.video_info = some vi) := by
  constructor
  · intro h1 h2
    cases hs : s.state <;>
      simp_all [esp_rtmp_push_set_audio_info, esp_rtmp_push_set_video_info]
  · intro h
    rcases h with h | h <;>
      simp [esp_rtmp_push_set_audio_info, esp_rtmp_push_set_video_info, h]

theorem claim_C6_witness :
    (esp_rtmp_push_set_audio_info sessionConnected audioI0 =
        (ESP_MEDIA_ERR_WRONG_STATE, sessionConnected) ∧
      esp_rtmp_push_set_video_info sessionConnected videoI0 =
        (ESP_MEDIA_ERR_WRONG_STATE, sessionConnected)) ∧
    ((esp_rtmp_push_set_audio_info (esp_rtmp_push_open cfg0)
        audioI0).1 = ESP_MEDIA_ERR_OK ∧
      (esp_rtmp_push_set_audio_info (esp_rtmp_push_open cfg0)
        audioI0).2.audio_info = some audioI0 ∧
      (esp_rtmp_push_set_video_info (esp_rtmp_push_open cfg0)
        videoI0).1 = ESP_MEDIA_ERR_OK ∧
      (esp_rtmp_push_set_video_info (esp_rtmp_push_open cfg0)
        videoI0).2.video_info = some videoI0) :=
  ⟨(claim_C6_set_info_gate sessionConnected audioI0 videoI0).1
      (by decide) (by decide),
   (claim_C6_set_info_gate (esp_rtmp_push_open cfg0) audioI0 videoI0).2
      (Or.inl (by decide))⟩

/-- C7 counterexample: after a successful close, a push on the closed
session returns `WrongState`, not `InvalidArgument`, refuting the claim
that every non-close operation on the closed handle fails with
`InvalidArgument`. -/
theorem claim_C7_counterexample :
    (esp_rtmp_push_close (esp_rtmp_push_open cfg0)).1 = ESP_MEDIA_ERR_OK ∧
    (esp_rtmp_push_audio sessionClosed audioD0 true).1 =
      ESP_MEDIA_ERR_WRONG_STATE ∧
    ESP_MEDIA_ERR_WRONG_STATE ≠ ESP_MEDIA_ERR_INVALID_ARG := by
  refine ⟨rfl, ?_, by decide⟩
  rw [push_audio_not_connected sessionClosed audioD0 true (by decide)]

/-- C7 (amended): `close` is permitted from every state, returns `OK` and
moves the session to `Closed`; a second close is a no-op returning `OK`;
subsequent pushes and info-setting calls on the closed session fail with
`WrongState` without changing the session, and `connect` on the closed
session fails with `InvalidArgument` without changing the session. -/
theorem claim_C7_close_idempotent (s : Session)
    (da : esp_rtmp_audio_data_t) (dv : esp_rtmp_video_data_t)
    (ai : esp_rtmp_audio_info_t) (vi : esp_rtmp_video_info_t)
    (a w : Bool) :
    (esp_rtmp_push_close s).1 = ESP_MEDIA_ERR_OK ∧
    (esp_rtmp_push_close s).2.state = .Closed ∧
    esp_rtmp_push_close (esp_rtmp_push_close s).2 =
      (ESP_MEDIA_ERR_OK, (esp_rtmp_push_close s).2) ∧
    esp_rtmp_push_audio (esp_rtmp_push_close s).2 da w =
      (ESP_MEDIA_ERR_WRONG_STATE, (esp_rtmp_push_close s).2) ∧
    esp_rtmp_push_video (esp_rtmp_push_close s).2 dv w =
      (ESP_MEDIA_ERR_WRONG_STATE, (esp_rtmp_push_close s).2) ∧
    esp_rtmp_push_set_audio_info (esp_rtmp_push_close s).2 ai =
      (ESP_MEDIA_ERR_WRONG_STATE, (esp_rtmp_push_close s).2) ∧
    esp_rtmp_push_set_video_info (esp_rtmp_push_close s).2 vi =
      (ESP_MEDIA_ERR_WRONG_STATE, (esp_rtmp_push_close s).2) ∧
    esp_rtmp_push_connect (esp_rtmp_push_close s).2 a =
      (ESP_MEDIA_ERR_INVALID_ARG, (esp_rtmp_push_close s).2) := by
  refine ⟨rfl, rfl, ?_, ?_, ?_, ?_, ?_, ?_⟩
  · simp [esp_rtmp_push_close]
  · exact push_audio_not_connected _ da w (by simp [esp_rtmp_push_close])
  · exact push_video_not_connected _ dv w (by simp [esp_rtmp_push_close])
  · simp [esp_rtmp_push_set_audio_info, esp_rtmp_push_close]
  · simp [esp_rtmp_push_set_video_info, esp_rtmp_push_close]
  · simp [esp_rtmp_push_connect, esp_rtmp_push_close]

/-- C8: `connect` succeeds (reaching `Connected`) only when invoked from
`Ready`, which implies at least one of the media infos is set; from any
other state, or with neither info set, `connect` fails with
`InvalidArgument` and does not change the session; from `Ready`, server
acceptance after the handshake and command round-trips leaves the session
`Connected`. -/
theorem claim_C8_connect_gate (cfg : rtmp_push_cfg_t) (ops : List Op)
    (a : Bool) :
    ((esp_rtmp_push_connect (runFromOpen cfg ops) a).1 =
        ESP_MEDIA_ERR_OK →
      (runFromOpen cfg ops).state = .Ready ∧
      ((runFromOpen cfg ops).audio_info.isSome ∨
        (runFromOpen cfg ops).video_info.isSome) ∧
      (esp_rtmp_push_connect (runFromOpen cfg ops) a).2.state =
        .Connected) ∧
    ((runFromOpen cfg ops).state ≠ .Ready →
      esp_rtmp_push_connect (runFromOpen cfg ops) a =
        (ESP_MEDIA_ERR_INVALID_ARG, runFromOpen cfg ops)) ∧
    ((runFromOpen cfg ops).audio_info = none →
      (runFromOpen cfg ops).video_info = none →
      esp_rtmp_push_connect (runFromOpen cfg ops) a =
        (ESP_MEDIA_ERR_INVALID_ARG, runFromOpen cfg ops)) ∧
    ((runFromOpen cfg ops).state = .Ready →
      (esp_rtmp_push_connect (runFromOpen cfg ops) true).1 =
        ESP_MEDIA_ERR_OK ∧
      (esp_rtmp_push_connect (runFromOpen cfg ops) true).2.state =
        .Connected) := by
  have I : SessionInv (runFromOpen cfg ops) :=
    runOps_inv _ ops (open_inv cfg)
  have hready : (runFromOpen cfg ops).state ≠ .Ready →
      esp_rtmp_push_connect (runFromOpen cfg ops) a =
        (ESP_MEDIA_ERR_INVALID_ARG, runFromOpen cfg ops) := by
    intro hs
    simp [esp_rtmp_push_connect, hs]
  refine ⟨?_, hready, ?_, ?_⟩
  · intro h
    by_cases hs : (runFromOpen cfg ops).state = .Ready
    · refine ⟨hs, I.ready_info hs, ?_⟩
      cases a with
      | false => simp [esp_rtmp_push_connect, hs] at h
      | true => simp [esp_rtmp_push_connect, hs]
    · rw [hready hs] at h
      simp at h
  · intro ha hv
    have hs : (runFromOpen cfg ops).state ≠ .Ready := by
      intro hs
      rcases I.ready_info hs with hi | hi
      · rw [ha] at hi
        exact absurd hi (by decide)
      · rw [hv] at hi
        exact absurd hi (by decide)
    exact hready hs
  · intro hs
    simp [esp_rtmp_push_connect, hs]

theorem claim_C8_witness :
    (esp_rtmp_push_connect (runFromOpen cfg0 [Op.setAudio audioI0])
        true).1 = ESP_MEDIA_ERR_OK ∧
    (esp_rtmp_push_connect (runFromOpen cfg0 [Op.setAudio audioI0])
        true).2.state = .Connected :=
  (claim_C8_connect_gate cfg0 [Op.setAudio audioI0] true).2.2.2 (by decide)

/-- C9: after a push fails with `WriteFailure` the session is in `Error`;
short of `close` no further operation changes it, every further push
returns `WrongState` without writing, and no sequence of operations ever
brings it back to `Connected`. -/
theorem claim_C9_write_failure_traps (s : Session)
    (dv : esp_rtmp_video_data_t) (da : esp_rtmp_audio_data_t) (w : Bool) :
    ((esp_rtmp_push_video s dv w).1 = ESP_MEDIA_ERR_WRITE_DATA →
      ErrorTrapped (esp_rtmp_push_video s dv w).2) ∧
    ((esp_rtmp_push_audio s da w).1 = ESP_MEDIA_ERR_WRITE_DATA →
      ErrorTrapped (esp_rtmp_push_audio s da w).2) :=
  ⟨fun h => error_trapped_of_error _ (push_video_failure_state s dv w h),
   fun h => error_trapped_of_error _ (push_audio_failure_state s da w h)⟩

theorem claim_C9_witness :
    ErrorTrapped (esp_rtmp_push_video sessionConnected videoD0 false).2 :=
  (claim_C9_write_failure_traps sessionConnected videoD0 audioD0
    false).1 (by decide)

/-- C10: the presentation timestamp at the public interface is a 32-bit
unsigned integer (`uint32_t pts` in `esp_rtmp_video_data_t` and
`esp_rtmp_audio_data_t`): the stored value is the argument modulo `2^32`,
always below `2^32`, and a timestamp wrapped past `2^32` produces a frame
indistinguishable from one with the small timestamp. -/
theorem claim_C10_pts_32_bit (t : Nat) (k : Bool) (bs : List Nat) :
    (mkVideoData t k bs).pts = t % 2 ^ 32 ∧
    (mkVideoData t k bs).pts < 2 ^ 32 ∧
    mkVideoData (t + 2 ^ 32) k bs = mkVideoData t k bs ∧
    (mkAudioData t bs).pts = t % 2 ^ 32 ∧
    (mkAudioData t bs).pts < 2 ^ 32 ∧
    mkAudioData (t + 2 ^ 32) bs = mkAudioData t bs := by
  refine ⟨rfl, Nat.mod_lt _ (by norm_num), ?_, rfl,
    Nat.mod_lt _ (by norm_num), ?_⟩
  · simp [mkVideoData, Nat.add_mod_right]
  · simp [mkAudioData, Nat.add_mod_right]

theorem encBE_length (k n : Nat) : (encBE k n).length = k := by
  induction k generalizing n with
  | zero => rfl
  | succ k ih => simp [encBE, ih]

theorem decBE_append (acc : Nat) (xs ys : List Nat) :
    decBE acc (xs ++ ys) = decBE (decBE acc xs) ys := by
  induction xs generalizing acc with
  | nil => rfl
  | cons b bs ih => simp [decBE, ih]

theorem decBE_encBE (k n acc : Nat) (h : n < 256 ^ k) :
    decBE acc (encBE k n) = acc * 256 ^ k + n := by
  induction k generalizing n acc with
  | zero =>
    simp only [encBE, decBE, pow_zero]
    omega
  | succ k ih =>
    have hdiv : n / 256 < 256 ^ k := by
      apply Nat.div_lt_of_lt_mul
      rw [← pow_succ']
      exact h
    rw [encBE, decBE_append, ih (n / 256) acc hdiv]
    show (acc * 256 ^ k + n / 256) * 256 + n % 256 = acc * 256 ^ (k + 1) + n
    calc (acc * 256 ^ k + n / 256) * 256 + n % 256
        = acc * (256 ^ k * 256) + (256 * (n / 256) + n % 256) := by ring
      _ = acc * 256 ^ (k + 1) + n := by
          rw [← pow_succ]
          congr 1
          omega

theorem encBE_two (n : Nat) : encBE 2 n = [n / 256 % 256, n % 256] := rfl

theorem take_at_len {α : Type} (xs ys : List α) (n : Nat)
    (h : n = xs.length) : (xs ++ ys).take n = xs := by
  subst h
  simp

theorem drop_at_len {α : Type} (xs ys : List α) (n : Nat)
    (h : n = xs.length) : (xs ++ ys).drop n = ys := by
  subst h
  simp

theorem fuelVal_pos (v : AmfValue) : 1 ≤ fuelVal v := by
  cases v <;> simp [fuelVal]

theorem fuelProps_pos (ps : AmfProps) : 1 ≤ fuelProps ps := by
  cases ps <;> simp [fuelProps]

mutual
theorem decodeVal_encodeVal (v : AmfValue) (rest : List Nat) (fuel : Nat)
    (hwf : wfVal v = true) (hfuel : fuelVal v ≤ fuel) :
    decodeVal fuel (encodeVal v ++ rest) = some (v, rest) := by
  cases fuel with
  | zero => exact absurd (le_trans (fuelVal_pos v) hfuel) (by omega)
  | succ f =>
    cases v with
    | number p =>
      have hp : p < 256 ^ 8 := by
        have := of_decide_eq_true hwf
        norm_num at this ⊢
        exact this
      simp only [encodeVal, List.cons_append, decodeVal]
      rw [if_pos (by simp [encBE_length]),
        take_at_len (encBE 8 p) rest 8 (encBE_length 8 p).symm,
        drop_at_len (encBE 8 p) rest 8 (encBE_length 8 p).symm,
        decBE_encBE 8 p 0 hp]
      simp
    | boolean b => cases b <;> simp [encodeVal, decodeVal]
    | str s =>
      have hs : s.length < 2 ^ 16 := of_decide_eq_true hwf
      have hb : s.length / 256 % 256 * 256 + s.length % 256 = s.length := by
        omega
      simp only [encodeVal, encBE_two, List.cons_append, List.append_assoc,
        decodeVal, List.nil_append]
      rw [hb, if_pos (by simp), take_at_len s rest s.length rfl,
        drop_at_len s rest s.length rfl]
    | nullValue => simp [encodeVal, decodeVal]
    | object ps =>
      have h1 : wfProps ps = true := hwf
      have h2 : fuelProps ps ≤ f := by
        simp only [fuelVal] at hfuel
        omega
      simp only [encodeVal, List.cons_append, List.append_assoc,
        decodeVal, List.nil_append]
      rw [decodeProps_encodeProps ps rest f h1 h2]

theorem decodeProps_encodeProps (ps : AmfProps) (rest : List Nat)
    (fuel : Nat) (hwf : wfProps ps = true) (hfuel : fuelProps ps ≤ fuel) :
    decodeProps fuel (encodeProps ps ++ 0 :: 0 :: 9 :: rest) =
      some (ps, rest) := by
  cases fuel with
  | zero => exact absurd (le_trans (fuelProps_pos ps) hfuel) (by omega)
  | succ f =>
    cases ps with
    | nil => simp [encodeProps, decodeProps]
    | cons k v2 ps2 =>
      simp only [wfProps, Bool.and_eq_true, decide_eq_true_eq] at hwf
      obtain ⟨⟨⟨hk0, hk16⟩, hv2⟩, hps2⟩ := hwf
      have hfv : fuelVal v2 ≤ f := by
        simp only [fuelProps] at hfuel
        omega
      have hfp : fuelProps ps2 ≤ f := by
        simp only [fuelProps] at hfuel
        have := fuelVal_pos v2
        omega
      have hb : k.length / 256 % 256 * 256 + k.length % 256 = k.length := by
        omega
      have heq : encodeProps (.cons k v2 ps2) ++ 0 :: 0 :: 9 :: rest =
          (k.length / 256 % 256) :: (k.length % 256) ::
            (k ++ (encodeVal v2 ++
              (encodeProps ps2 ++ (0 :: 0 :: 9 :: rest)))) := by
        simp [encodeProps, encBE_two]
      rw [heq]
      simp only [decodeProps]
      rw [hb, if_neg (by omega), if_pos (by simp),
        take_at_len k _ k.length rfl, drop_at_len k _ k.length rfl,
        decodeVal_encodeVal v2 _ f hv2 hfv]
      simp [decodeProps_encodeProps ps2 rest f hps2 hfp]
end

theorem encodeVal_ne_nil (v : AmfValue) : encodeVal v ≠ [] := by
  cases v <;> simp [encodeVal]

theorem decodeArgs_encode (args : List AmfValue) (fuel : Nat)
    (hwf : ∀ v ∈ args, wfVal v = true) (hfuel : fuelArgs args ≤ fuel) :
    decodeArgs fuel ((args.map encodeVal).flatten) = some args := by
  induction args generalizing fuel with
  | nil => cases fuel <;> rfl
  | cons v vs ih =>
    have h1 : wfVal v = true := hwf v (List.mem_cons_self v vs)
    have h2 : ∀ u ∈ vs, wfVal u = true :=
      fun u hu => hwf u (List.mem_cons_of_mem v hu)
    cases fuel with
    | zero =>
      exfalso
      simp only [fuelArgs] at hfuel
      omega
    | succ f =>
      have hfv : fuelVal v ≤ f + 1 := by
        simp only [fuelArgs] at hfuel
        omega
      have hfvs : fuelArgs vs ≤ f := by
        simp only [fuelArgs] at hfuel
        have := fuelVal_pos v
        omega
      have hflat : ((v :: vs).map encodeVal).flatten =
          encodeVal v ++ (vs.map encodeVal).flatten := by simp
      obtain ⟨c, cs, hcons⟩ :=
        List.exists_cons_of_ne_nil (l := encodeVal v) (encodeVal_ne_nil v)
      rw [hflat, hcons, List.cons_append]
      show decodeArgs (f + 1) (c :: (cs ++ (vs.map encodeVal).flatten)) =
        some (v :: vs)
      simp only [decodeArgs]
      rw [show c :: (cs ++ (vs.map encodeVal).flatten) =
            encodeVal v ++ (vs.map encodeVal).flatten by rw [hcons]; simp,
        decodeVal_encodeVal v _ (f + 1) h1 hfv]
      simp [ih f h2 hfvs]

/-- C5: for every command name and every argument set built from the
supported scalar types (number, boolean, UTF-8 string, null) and nested
ordered key-value objects — each representable at the interface (string
lengths within the 2-byte prefix, number payloads within 8 bytes,
non-empty property names) — decoding the command encoder's encoding, with
enough decoder fuel, yields back an equal name and argument set. -/
theorem claim_C5_command_roundtrip (name : List Nat)
    (args : List AmfValue) (fuel : Nat) (hname : name.length < 2 ^ 16)
    (hwf : ∀ v ∈ args, wfVal v = true)
    (hfuel : fuelArgs args + 1 ≤ fuel) :
    decode_command fuel (encode_command name args) = some (name, args) := by
  unfold decode_command encode_command
  rw [decodeVal_encodeVal (.str name) _ fuel (by simpa [wfVal] using hname)
      (le_trans (by simp [fuelVal]) hfuel)]
  simp [decodeArgs_encode args fuel hwf (by omega)]

theorem claim_C5_witness :
    decode_command 32 (encode_command cmdName0 cmdArgs0) =
      some (cmdName0, cmdArgs0) :=
  claim_C5_command_roundtrip cmdName0 cmdArgs0 32 (by decide) (by decide)
    (by decide)

end RtmpPush
